import Mathlib

/-!
Verification of the library management system (`src/main.py`).

The Python program keeps three mutable classes: `Book` (title, author,
isbn, `is_borrowed` flag, `borrower` reference), `User` (name, card id,
`borrowed_books` list, `max_borrow_limit = 5`) and `Library` (dict of
books keyed by isbn, dict of users keyed by card id, append-only
`borrow_records` list).  Python dicts preserve insertion order, so both
dicts are embedded as insertion-ordered association lists; mutation of an
entity found in a dict is embedded as looking the entity up, transforming
it, and storing the transformed value back under the same key.  Object
references (`Book.borrower` holds a `User` object, `User.borrowed_books`
holds `Book` objects) are embedded as the entities' unique identifiers
(card id resp. isbn), the identifier-keyed modelling the specification
itself prescribes for this cyclic reference pair.  `print` calls carry no
state and are dropped.  A Python function that can fall off the end
without `return` yields `None`; such results are embedded as
`Option Bool`, with `none` for the missing return value.
-/

/-- One catalog item of `src/main.py` (`class Book`): `is_borrowed`
defaults to `False` and `borrower` to `None`; the borrower is recorded by
card id. -/
structure Book where
  title : String
  author : String
  isbn : String
  is_borrowed : Bool := false
  borrower : Option String := none
  deriving Repr, DecidableEq

/-- Embeds `Book.borrow`: succeeds exactly when the book is not on loan, setting
the flag and the holder; otherwise fails with no change. -/
def Book.borrow (b : Book) (card : String) : Bool × Book :=
  if !b.is_borrowed then
    (true, { b with is_borrowed := true, borrower := some card })
  else
    (false, b)

/-- Embeds `Book.return_book`: succeeds exactly when the book is on loan,
clearing the flag and the holder; otherwise fails with no change. -/
def Book.return_book (b : Book) : Bool × Book :=
  if b.is_borrowed then
    (true, { b with is_borrowed := false, borrower := none })
  else
    (false, b)

/-- Embeds `Book.is_available`: the negation of the loan flag. -/
def Book.is_available (b : Book) : Bool :=
  !b.is_borrowed

/-- One registered borrower of `src/main.py` (`class User`): a fresh user
has no borrowed books and the fixed limit 5. -/
structure User where
  name : String
  card_id : String
  borrowed_books : List String := []
  max_borrow_limit : Nat := 5
  deriving Repr, DecidableEq

/-- Embeds `User.can_borrow_more`: strictly below the borrow limit. -/
def User.can_borrow_more (u : User) : Bool :=
  u.borrowed_books.length < u.max_borrow_limit

/-- Embeds `User.borrow_book`: limit check first, then delegate to
`Book.borrow`; on success the book is appended to `borrowed_books`. -/
def User.borrow_book (u : User) (b : Book) : Bool × User × Book :=
  if !u.can_borrow_more then
    (false, u, b)
  else
    match b.borrow u.card_id with
    | (true, b') =>
        (true, { u with borrowed_books := u.borrowed_books ++ [b.isbn] }, b')
    | (false, b') => (false, u, b')

/-- Embeds `User.return_book`: membership check first; on a successful
`Book.return_book` the book is removed (first occurrence) from
`borrowed_books`.  When the book is held but `Book.return_book` fails the
Python function falls off the end, returning `None`, embedded as
`none`. -/
def User.return_book (u : User) (b : Book) : Option Bool × User × Book :=
  if b.isbn ∈ u.borrowed_books then
    match b.return_book with
    | (true, b') =>
        (some true, { u with borrowed_books := u.borrowed_books.erase b.isbn }, b')
    | (false, b') => (none, u, b')
  else
    (some false, u, b)

/-- One entry of the borrow log (`record` dict built in
`Library.borrow_book`); the timestamp is the constant placeholder string
the source stores. -/
structure LoanRecord where
  user_name : String
  user_card_id : String
  book_title : String
  book_isbn : String
  borrow_time : String
  deriving Repr, DecidableEq

/-- The placeholder the source stores as `borrow_time`. -/
def borrowTimePlaceholder : String := "当前时间"

/-- Lookup in an insertion-ordered association list (Python `d[k]` /
`k in d`): first binding with the key. -/
def lookupA {α : Type} (k : String) : List (String × α) → Option α
  | [] => none
  | (k', v) :: t => if k' = k then some v else lookupA k t

/-- Membership test `k in d` for the embedded dict. -/
def hasKey {α : Type} (k : String) (l : List (String × α)) : Bool :=
  (lookupA k l).isSome

/-- Store a value back under an existing key (embeds in-place mutation of
the object a dict holds): replaces the first binding with the key,
preserving order; a missing key leaves the list unchanged. -/
def setA {α : Type} (k : String) (v : α) : List (String × α) → List (String × α)
  | [] => []
  | (k', v') :: t => if k' = k then (k', v) :: t else (k', v') :: setA k v t

/-- Embeds `del d[k]`: drop the first binding with the key, preserving order. -/
def eraseA {α : Type} (k : String) : List (String × α) → List (String × α)
  | [] => []
  | (k', v') :: t => if k' = k then t else (k', v') :: eraseA k t

/-- The whole catalog of `src/main.py` (`class Library`). -/
structure Library where
  name : String
  books : List (String × Book) := []
  users : List (String × User) := []
  borrow_records : List LoanRecord := []
  deriving Repr, DecidableEq

/-- Embeds `Library.__init__`: a fresh, empty library. -/
def Library.create (name : String) : Library :=
  { name := name }

/-- Embeds `Library.add_book`: fails on a duplicate isbn, otherwise inserts a
fresh available book at the end of the dict. -/
def Library.add_book (lib : Library) (title author isbn : String) : Bool × Library :=
  if hasKey isbn lib.books then
    (false, lib)
  else
    (true, { lib with books := lib.books ++ [(isbn, { title := title, author := author, isbn := isbn })] })

/-- Embeds `Library.remove_book`: fails on an unknown isbn, fails (with no
change) when the book is on loan, otherwise deletes the binding. -/
def Library.remove_book (lib : Library) (isbn : String) : Bool × Library :=
  match lookupA isbn lib.books with
  | none => (false, lib)
  | some b =>
      if b.is_borrowed then
        (false, lib)
      else
        (true, { lib with books := eraseA isbn lib.books })

/-- Embeds `Library.register_user`: fails on a duplicate card id, otherwise
inserts a fresh user at the end of the dict. -/
def Library.register_user (lib : Library) (name card_id : String) : Bool × Library :=
  if hasKey card_id lib.users then
    (false, lib)
  else
    (true, { lib with users := lib.users ++ [(card_id, { name := name, card_id := card_id })] })

/-- Embeds `Library.borrow_book`: user lookup, then book lookup (each failure
returns `false` with no change), then `User.borrow_book`; the possibly
mutated user and book are stored back, and on success one `LoanRecord` is
appended. -/
def Library.borrow_book (lib : Library) (user_card_id book_isbn : String) : Bool × Library :=
  match lookupA user_card_id lib.users with
  | none => (false, lib)
  | some user =>
      match lookupA book_isbn lib.books with
      | none => (false, lib)
      | some book =>
          match user.borrow_book book with
          | (true, u', b') =>
              (true, { lib with
                  users := setA user_card_id u' lib.users,
                  books := setA book_isbn b' lib.books,
                  borrow_records := lib.borrow_records ++
                    [{ user_name := user.name, user_card_id := user_card_id,
                       book_title := book.title, book_isbn := book_isbn,
                       borrow_time := borrowTimePlaceholder }] })
          | (false, u', b') =>
              (false, { lib with
                  users := setA user_card_id u' lib.users,
                  books := setA book_isbn b' lib.books })

/-- Embeds `Library.return_book`: same two lookups, then `User.return_book`,
whose result (possibly `None`) is passed through; the possibly mutated
user and book are stored back. -/
def Library.return_book (lib : Library) (user_card_id book_isbn : String) : Option Bool × Library :=
  match lookupA user_card_id lib.users with
  | none => (some false, lib)
  | some user =>
      match lookupA book_isbn lib.books with
      | none => (some false, lib)
      | some book =>
          match user.return_book book with
          | (r, u', b') =>
              (r, { lib with
                  users := setA user_card_id u' lib.users,
                  books := setA book_isbn b' lib.books })

/-- Embeds `Library.check_book_availability`: `None` for an unknown isbn,
otherwise `Book.is_available`. -/
def Library.check_book_availability (lib : Library) (book_isbn : String) : Option Bool :=
  match lookupA book_isbn lib.books with
  | none => none
  | some book => some book.is_available

/-- Python `str.lower()`, embedded as character-wise lowering. -/
def strLower (s : String) : String :=
  ⟨s.data.map Char.toLower⟩

/-- Contiguous-subsequence test on character lists: the needle occurs
starting at some position of the haystack. -/
def containsSeq : List Char → List Char → Bool
  | [], needle => needle.isEmpty
  | h :: t, needle => List.isPrefixOf needle (h :: t) || containsSeq t needle

/-- Case-insensitive substring test (`keyword in field.lower()` with the
keyword already lowered): character-list containment after lowering. -/
def strContains (hay needle : String) : Bool :=
  containsSeq hay.data needle.data

/-- Embeds `Library.search_book`: lower the keyword once, keep the books whose
title, author or dict key (isbn) contains it, in catalog order. -/
def Library.search_book (lib : Library) (keyword : String) : List Book :=
  let kw := strLower keyword
  (lib.books.filter fun p =>
    strContains (strLower p.2.title) kw ||
    strContains (strLower p.2.author) kw ||
    strContains (strLower p.1) kw).map Prod.snd

/-- One catalog-mutating public operation of `Library`. -/
inductive Op : Type
  | addBook (title author isbn : String)
  | removeBook (isbn : String)
  | registerUser (name card_id : String)
  | borrowBook (card_id isbn : String)
  | returnBook (card_id isbn : String)
  deriving Repr, DecidableEq

/-- Apply one operation, discarding the reported result. -/
def Library.applyOp (lib : Library) : Op → Library
  | .addBook t a i => (lib.add_book t a i).2
  | .removeBook i => (lib.remove_book i).2
  | .registerUser n c => (lib.register_user n c).2
  | .borrowBook c i => (lib.borrow_book c i).2
  | .returnBook c i => (lib.return_book c i).2

/-- Run a sequence of operations left to right. -/
def Library.runOps (lib : Library) : List Op → Library
  | [] => lib
  | op :: rest => (lib.applyOp op).runOps rest

/-- Concrete sample data used to instantiate the theorems: book `i1` is on
loan to user `c1`, book `i2` is on the shelf, user `c2` holds nothing. -/
def exBook1 : Book :=
  { title := "Dune", author := "Herbert", isbn := "i1",
    is_borrowed := true, borrower := some "c1" }

/-- Sample available book. -/
def exBook2 : Book :=
  { title := "Emma", author := "Austen", isbn := "i2" }

/-- Sample user holding `i1`. -/
def exUser1 : User :=
  { name := "Ann", card_id := "c1", borrowed_books := ["i1"] }

/-- Sample user holding nothing. -/
def exUser2 : User :=
  { name := "Bob", card_id := "c2" }

/-- Sample library state combining the data above, with one loan record. -/
def exLib : Library :=
  { name := "L",
    books := [("i1", exBook1), ("i2", exBook2)],
    users := [("c1", exUser1), ("c2", exUser2)],
    borrow_records := [{ user_name := "Ann", user_card_id := "c1",
                         book_title := "Dune", book_isbn := "i1",
                         borrow_time := borrowTimePlaceholder }] }

/-! Association-list lemmas. -/

theorem lookupA_mem {α : Type} {k : String} {v : α} :
    ∀ {l : List (String × α)}, lookupA k l = some v → (k, v) ∈ l
  | [], h => by simp [lookupA] at h
  | (k', v') :: t, h => by
      by_cases hk : k' = k
      · simp [lookupA, hk] at h
        subst hk h
        exact List.mem_cons_self _ _
      · simp [lookupA, hk] at h
        exact List.mem_cons_of_mem _ (lookupA_mem h)

theorem lookupA_eq_none_iff {α : Type} {k : String} :
    ∀ {l : List (String × α)}, lookupA k l = none ↔ k ∉ l.map Prod.fst
  | [] => by simp [lookupA]
  | (k', v') :: t => by
      by_cases hk : k' = k
      · simp [lookupA, hk]
      · simp [lookupA, hk, lookupA_eq_none_iff, Ne.symm hk]

theorem lookupA_append_some {α : Type} {k : String} {v : α} {l' : List (String × α)} :
    ∀ {l : List (String × α)}, lookupA k l = some v → lookupA k (l ++ l') = some v
  | [], h => by simp [lookupA] at h
  | (k', v') :: t, h => by
      by_cases hk : k' = k
      · simp [lookupA, hk] at h ⊢
        exact h
      · simp [lookupA, hk] at h ⊢
        exact lookupA_append_some h

theorem lookupA_setA_self {α : Type} {k : String} {v w : α} :
    ∀ {l : List (String × α)}, lookupA k l = some v → lookupA k (setA k w l) = some w
  | [], h => by simp [lookupA] at h
  | (k', v') :: t, h => by
      by_cases hk : k' = k
      · simp [lookupA, setA, hk]
      · simp [lookupA, setA, hk] at h ⊢
        exact lookupA_setA_self h

theorem lookupA_setA_ne {α : Type} {k k' : String} {w : α} (hne : k' ≠ k) :
    ∀ {l : List (String × α)}, lookupA k' (setA k w l) = lookupA k' l
  | [] => rfl
  | (k₀, v₀) :: t => by
      by_cases hk : k₀ = k
      · subst hk
        simp [lookupA, setA, Ne.symm hne]
      · simp only [setA, if_neg hk, lookupA]
        by_cases hk' : k₀ = k'
        · simp [hk']
        · simp [hk', lookupA_setA_ne hne]

theorem setA_eq_self {α : Type} {k : String} {v : α} :
    ∀ {l : List (String × α)}, lookupA k l = some v → setA k v l = l
  | [], h => by simp [lookupA] at h
  | (k', v') :: t, h => by
      by_cases hk : k' = k
      · simp [lookupA, hk] at h
        simp [setA, hk, h]
      · simp [lookupA, hk] at h
        simp [setA, hk, setA_eq_self h]

theorem keys_setA {α : Type} {k : String} {w : α} :
    ∀ {l : List (String × α)}, (setA k w l).map Prod.fst = l.map Prod.fst
  | [] => rfl
  | (k', v') :: t => by
      by_cases hk : k' = k
      · simp [setA, hk]
      · simp [setA, hk, keys_setA]

theorem mem_setA_of_nodup {α : Type} {k : String} {w : α} {p : String × α} :
    ∀ {l : List (String × α)}, (l.map Prod.fst).Nodup → p ∈ setA k w l →
      p = (k, w) ∨ (p ∈ l ∧ p.1 ≠ k)
  | [], _, hp => by simp [setA] at hp
  | (k', v') :: t, hnd, hp => by
      rw [List.map_cons, List.nodup_cons] at hnd
      by_cases hk : k' = k
      · subst hk
        rw [setA, if_pos rfl, List.mem_cons] at hp
        rcases hp with h | h
        · exact Or.inl h
        · refine Or.inr ⟨List.mem_cons_of_mem _ h, ?_⟩
          intro habs
          have hmem : p.1 ∈ List.map Prod.fst t := List.mem_map_of_mem Prod.fst h
          rw [habs] at hmem
          exact hnd.1 hmem
      · simp only [setA, if_neg hk, List.mem_cons] at hp
        rcases hp with h | h
        · exact Or.inr ⟨h ▸ List.mem_cons_self _ _, by simp [h, hk]⟩
        · rcases mem_setA_of_nodup hnd.2 h with h' | ⟨h₁, h₂⟩
          · exact Or.inl h'
          · exact Or.inr ⟨List.mem_cons_of_mem _ h₁, h₂⟩

theorem mem_eraseA {α : Type} {k : String} {p : String × α} :
    ∀ {l : List (String × α)}, p ∈ eraseA k l → p ∈ l
  | [], hp => by simp [eraseA] at hp
  | (k', v') :: t, hp => by
      by_cases hk : k' = k
      · simp only [eraseA, if_pos hk] at hp
        exact List.mem_cons_of_mem _ hp
      · simp only [eraseA, if_neg hk, List.mem_cons] at hp
        rcases hp with h | h
        · exact h ▸ List.mem_cons_self _ _
        · exact List.mem_cons_of_mem _ (mem_eraseA h)

theorem lookupA_eraseA_ne {α : Type} {k k' : String} (hne : k' ≠ k) :
    ∀ {l : List (String × α)}, lookupA k' (eraseA k l) = lookupA k' l
  | [] => rfl
  | (k₀, v₀) :: t => by
      by_cases hk : k₀ = k
      · subst hk
        simp [eraseA, lookupA, Ne.symm hne]
      · simp only [eraseA, if_neg hk, lookupA]
        by_cases hk' : k₀ = k'
        · simp [hk']
        · simp [hk', lookupA_eraseA_ne hne]

theorem lookupA_eraseA_self {α : Type} {k : String} :
    ∀ {l : List (String × α)}, (l.map Prod.fst).Nodup → lookupA k (eraseA k l) = none
  | [], _ => rfl
  | (k', v') :: t, hnd => by
      rw [List.map_cons, List.nodup_cons] at hnd
      by_cases hk : k' = k
      · subst hk
        simp only [eraseA, if_pos rfl]
        exact lookupA_eq_none_iff.mpr hnd.1
      · simp only [eraseA, if_neg hk, lookupA, if_neg hk]
        exact lookupA_eraseA_self hnd.2

theorem keys_eraseA_sublist {α : Type} {k : String} :
    ∀ {l : List (String × α)}, ((eraseA k l).map Prod.fst).Sublist (l.map Prod.fst)
  | [] => List.Sublist.refl _
  | (k', v') :: t => by
      by_cases hk : k' = k
      · simp only [eraseA, if_pos hk, List.map_cons]
        exact (List.sublist_cons_self _ _).trans (List.Sublist.refl _)
      · simp only [eraseA, if_neg hk, List.map_cons]
        exact List.Sublist.cons₂ _ keys_eraseA_sublist

theorem lookupA_key_unique {α : Type} {k : String} {v w : α} :
    ∀ {l : List (String × α)}, (l.map Prod.fst).Nodup → lookupA k l = some v →
      (k, w) ∈ l → w = v
  | [], _, h, _ => by simp [lookupA] at h
  | (k', v') :: t, hnd, h, hm => by
      rw [List.map_cons, List.nodup_cons] at hnd
      by_cases hk : k' = k
      · subst hk
        simp [lookupA] at h
        rcases List.mem_cons.mp hm with h' | h'
        · cases h'
          exact h.symm ▸ rfl
        · exact absurd (List.mem_map_of_mem Prod.fst h') (by simpa using hnd.1)
      · simp [lookupA, hk] at h
        rcases List.mem_cons.mp hm with h' | h'
        · cases h'
          exact absurd rfl hk
        · exact lookupA_key_unique hnd.2 h h'

/-! The state invariant maintained by every public catalog operation:
each dict value carries its own key, the loan flag and the holder field
of a book are set together, a user never holds more than the limit (5),
holds no duplicates, and every held isbn names a catalogued book that is
on loan to exactly that user; both dicts have distinct keys. -/

structure LibInv (lib : Library) : Prop where
  bookKey : ∀ p ∈ lib.books, (p.2).isbn = p.1
  bookFlag : ∀ p ∈ lib.books, (p.2).is_borrowed = (p.2).borrower.isSome
  bookKeysNodup : (lib.books.map Prod.fst).Nodup
  userKey : ∀ q ∈ lib.users, (q.2).card_id = q.1
  userLimit : ∀ q ∈ lib.users, (q.2).max_borrow_limit = 5
  userCount : ∀ q ∈ lib.users, (q.2).borrowed_books.length ≤ (q.2).max_borrow_limit
  userNodup : ∀ q ∈ lib.users, (q.2).borrowed_books.Nodup
  userKeysNodup : (lib.users.map Prod.fst).Nodup
  held : ∀ q ∈ lib.users, ∀ i ∈ (q.2).borrowed_books,
    ∃ b, lookupA i lib.books = some b ∧ b.is_borrowed = true ∧ b.borrower = some q.1

theorem not_hasKey_iff {α : Type} {k : String} {l : List (String × α)} :
    ¬(hasKey k l = true) ↔ k ∉ l.map Prod.fst := by
  constructor
  · intro h
    rw [← lookupA_eq_none_iff]
    cases hl : lookupA k l with
    | none => rfl
    | some v => exact absurd (by simp [hasKey, hl]) h
  · intro h hk
    rw [← lookupA_eq_none_iff] at h
    simp [hasKey, h] at hk

theorem libInv_create (name : String) : LibInv (Library.create name) := by
  constructor <;> simp [Library.create]

theorem libInv_add_book {lib : Library} (h : LibInv lib) (title author isbn : String) :
    LibInv (lib.add_book title author isbn).2 := by
  unfold Library.add_book
  by_cases hk : hasKey isbn lib.books = true
  · simpa [hk] using h
  · have hout : isbn ∉ lib.books.map Prod.fst := not_hasKey_iff.mp hk
    simp only [hk, if_false, Bool.false_eq_true]
    constructor
    · intro p hp
      rcases List.mem_append.mp hp with h' | h'
      · exact h.bookKey p h'
      · simp at h'
        subst h'
        rfl
    · intro p hp
      rcases List.mem_append.mp hp with h' | h'
      · exact h.bookFlag p h'
      · simp at h'
        subst h'
        rfl
    · have hout2 : ∀ x : Book, (isbn, x) ∉ lib.books :=
        fun x hx => hout (List.mem_map_of_mem Prod.fst hx)
      simpa [List.nodup_append] using ⟨h.bookKeysNodup, hout2⟩
    · exact h.userKey
    · exact h.userLimit
    · exact h.userCount
    · exact h.userNodup
    · exact h.userKeysNodup
    · intro q hq i hi
      obtain ⟨b, hb, h1, h2⟩ := h.held q hq i hi
      exact ⟨b, lookupA_append_some hb, h1, h2⟩

theorem libInv_register_user {lib : Library} (h : LibInv lib) (name card_id : String) :
    LibInv (lib.register_user name card_id).2 := by
  unfold Library.register_user
  by_cases hk : hasKey card_id lib.users = true
  · simpa [hk] using h
  · have hout : card_id ∉ lib.users.map Prod.fst := not_hasKey_iff.mp hk
    simp only [hk, if_false, Bool.false_eq_true]
    constructor
    · exact h.bookKey
    · exact h.bookFlag
    · exact h.bookKeysNodup
    · intro q hq
      rcases List.mem_append.mp hq with h' | h'
      · exact h.userKey q h'
      · simp at h'
        subst h'
        rfl
    · intro q hq
      rcases List.mem_append.mp hq with h' | h'
      · exact h.userLimit q h'
      · simp at h'
        subst h'
        rfl
    · intro q hq
      rcases List.mem_append.mp hq with h' | h'
      · exact h.userCount q h'
      · simp at h'
        subst h'
        simp
    · intro q hq
      rcases List.mem_append.mp hq with h' | h'
      · exact h.userNodup q h'
      · simp at h'
        subst h'
        simp
    · have hout2 : ∀ x : User, (card_id, x) ∉ lib.users :=
        fun x hx => hout (List.mem_map_of_mem Prod.fst hx)
      simpa [List.nodup_append] using ⟨h.userKeysNodup, hout2⟩
    · intro q hq i hi
      rcases List.mem_append.mp hq with h' | h'
      · exact h.held q h' i hi
      · simp at h'
        subst h'
        simp at hi

theorem libInv_remove_book {lib : Library} (h : LibInv lib) (isbn : String) :
    LibInv (lib.remove_book isbn).2 := by
  unfold Library.remove_book
  cases hlook : lookupA isbn lib.books with
  | none => exact h
  | some b =>
    by_cases hbor : b.is_borrowed = true
    · simpa [hbor] using h
    · simp only [hbor, if_false, Bool.false_eq_true]
      constructor
      · intro p hp
        exact h.bookKey p (mem_eraseA hp)
      · intro p hp
        exact h.bookFlag p (mem_eraseA hp)
      · exact h.bookKeysNodup.sublist keys_eraseA_sublist
      · exact h.userKey
      · exact h.userLimit
      · exact h.userCount
      · exact h.userNodup
      · exact h.userKeysNodup
      · intro q hq i hi
        obtain ⟨bi, hbi, h1, h2⟩ := h.held q hq i hi
        have hne : i ≠ isbn := by
          intro habs
          subst habs
          rw [hlook] at hbi
          cases hbi
          exact hbor h1
        exact ⟨bi, (lookupA_eraseA_ne hne).trans hbi, h1, h2⟩

theorem libInv_not_held {lib : Library} (h : LibInv lib) {isbn : String} {b : Book}
    (hb : lookupA isbn lib.books = some b) (hbor : b.is_borrowed = false) :
    ∀ q ∈ lib.users, isbn ∉ (q.2).borrowed_books := by
  intro q hq habs
  obtain ⟨bi, hbi, h1, h2⟩ := h.held q hq isbn habs
  rw [hb] at hbi
  cases hbi
  rw [hbor] at h1
  exact Bool.false_ne_true h1

theorem libInv_borrow_book {lib : Library} (h : LibInv lib) (card isbn : String) :
    LibInv (lib.borrow_book card isbn).2 := by
  unfold Library.borrow_book
  cases hu : lookupA card lib.users with
  | none => exact h
  | some u =>
    cases hb : lookupA isbn lib.books with
    | none => exact h
    | some b =>
      simp only [User.borrow_book, Book.borrow]
      by_cases hcan : u.can_borrow_more = true
      · by_cases hbor : b.is_borrowed = true
        · -- the book is already on loan: the borrow fails without mutation
          simp only [hcan, hbor, Bool.not_true, Bool.false_eq_true, if_false]
          rw [setA_eq_self hu, setA_eq_self hb]
          exact h
        · -- the borrow succeeds
          have hbor2 : b.is_borrowed = false := by simpa using hbor
          simp only [hcan, hbor2, Bool.not_true, Bool.not_false, Bool.false_eq_true,
            if_false, if_true]
          have hkey : b.isbn = isbn := h.bookKey (isbn, b) (lookupA_mem hb)
          have hcard : u.card_id = card := h.userKey (card, u) (lookupA_mem hu)
          have hnotheld : ∀ q ∈ lib.users, isbn ∉ (q.2).borrowed_books :=
            libInv_not_held h hb hbor2
          have hcan2 : u.borrowed_books.length < u.max_borrow_limit := by
            simpa [User.can_borrow_more] using hcan
          constructor
          · intro p hp
            rcases mem_setA_of_nodup h.bookKeysNodup hp with h' | ⟨hpold, _⟩
            · subst h'
              simpa using hkey
            · exact h.bookKey p hpold
          · intro p hp
            rcases mem_setA_of_nodup h.bookKeysNodup hp with h' | ⟨hpold, _⟩
            · subst h'
              rfl
            · exact h.bookFlag p hpold
          · rw [keys_setA]
            exact h.bookKeysNodup
          · intro q hq
            rcases mem_setA_of_nodup h.userKeysNodup hq with h' | ⟨hqold, _⟩
            · subst h'
              simpa using hcard
            · exact h.userKey q hqold
          · intro q hq
            rcases mem_setA_of_nodup h.userKeysNodup hq with h' | ⟨hqold, _⟩
            · subst h'
              simpa using h.userLimit (card, u) (lookupA_mem hu)
            · exact h.userLimit q hqold
          · intro q hq
            rcases mem_setA_of_nodup h.userKeysNodup hq with h' | ⟨hqold, _⟩
            · subst h'
              simp only [List.length_append, List.length_cons, List.length_nil]
              omega
            · exact h.userCount q hqold
          · intro q hq
            rcases mem_setA_of_nodup h.userKeysNodup hq with h' | ⟨hqold, _⟩
            · subst h'
              have hnin : b.isbn ∉ u.borrowed_books := by
                rw [hkey]
                exact hnotheld (card, u) (lookupA_mem hu)
              simpa [List.nodup_append] using
                ⟨h.userNodup (card, u) (lookupA_mem hu), hnin⟩
            · exact h.userNodup q hqold
          · rw [keys_setA]
            exact h.userKeysNodup
          · intro q hq i hi
            rcases mem_setA_of_nodup h.userKeysNodup hq with h' | ⟨hqold, hqne⟩
            · subst h'
              simp only at hi
              rcases List.mem_append.mp hi with hil | hir
              · obtain ⟨bi, hbi, h1, h2⟩ := h.held (card, u) (lookupA_mem hu) i hil
                have hine : i ≠ isbn := by
                  intro habs
                  exact hnotheld (card, u) (lookupA_mem hu) (habs ▸ hil)
                exact ⟨bi, (lookupA_setA_ne hine).trans hbi, h1, h2⟩
              · have hir2 : i = b.isbn := by simpa using hir
                subst hir2
                rw [hkey]
                exact ⟨_, lookupA_setA_self hb, rfl, by simp [hcard]⟩
            · obtain ⟨bi, hbi, h1, h2⟩ := h.held q hqold i hi
              have hine : i ≠ isbn := by
                intro habs
                exact hnotheld q hqold (habs ▸ hi)
              exact ⟨bi, (lookupA_setA_ne hine).trans hbi, h1, h2⟩
      · -- the user is at the limit: the borrow fails without mutation
        have hcan2 : u.can_borrow_more = false := by simpa using hcan
        simp only [hcan2, Bool.not_false, if_true]
        rw [setA_eq_self hu, setA_eq_self hb]
        exact h

theorem libInv_return_book {lib : Library} (h : LibInv lib) (card isbn : String) :
    LibInv (lib.return_book card isbn).2 := by
  unfold Library.return_book
  cases hu : lookupA card lib.users with
  | none => exact h
  | some u =>
    cases hb : lookupA isbn lib.books with
    | none => exact h
    | some b =>
      simp only [User.return_book, Book.return_book]
      by_cases hmem : b.isbn ∈ u.borrowed_books
      · by_cases hbor : b.is_borrowed = true
        · -- the return succeeds
          simp only [hmem, hbor, if_true]
          have hkey : b.isbn = isbn := h.bookKey (isbn, b) (lookupA_mem hb)
          have hown : b.borrower = some card := by
            obtain ⟨bi, hbi, h1, h2⟩ := h.held (card, u) (lookupA_mem hu) b.isbn hmem
            rw [hkey, hb] at hbi
            cases hbi
            exact h2
          constructor
          · intro p hp
            rcases mem_setA_of_nodup h.bookKeysNodup hp with h' | ⟨hpold, _⟩
            · subst h'
              simpa using hkey
            · exact h.bookKey p hpold
          · intro p hp
            rcases mem_setA_of_nodup h.bookKeysNodup hp with h' | ⟨hpold, _⟩
            · subst h'
              rfl
            · exact h.bookFlag p hpold
          · rw [keys_setA]
            exact h.bookKeysNodup
          · intro q hq
            rcases mem_setA_of_nodup h.userKeysNodup hq with h' | ⟨hqold, _⟩
            · subst h'
              simpa using h.userKey (card, u) (lookupA_mem hu)
            · exact h.userKey q hqold
          · intro q hq
            rcases mem_setA_of_nodup h.userKeysNodup hq with h' | ⟨hqold, _⟩
            · subst h'
              simpa using h.userLimit (card, u) (lookupA_mem hu)
            · exact h.userLimit q hqold
          · intro q hq
            rcases mem_setA_of_nodup h.userKeysNodup hq with h' | ⟨hqold, _⟩
            · subst h'
              simp only
              calc (u.borrowed_books.erase b.isbn).length
                  ≤ u.borrowed_books.length :=
                    (List.erase_sublist b.isbn u.borrowed_books).length_le
                _ ≤ u.max_borrow_limit := h.userCount (card, u) (lookupA_mem hu)
            · exact h.userCount q hqold
          · intro q hq
            rcases mem_setA_of_nodup h.userKeysNodup hq with h' | ⟨hqold, _⟩
            · subst h'
              exact (h.userNodup (card, u) (lookupA_mem hu)).erase b.isbn
            · exact h.userNodup q hqold
          · rw [keys_setA]
            exact h.userKeysNodup
          · intro q hq i hi
            rcases mem_setA_of_nodup h.userKeysNodup hq with h' | ⟨hqold, hqne⟩
            · subst h'
              simp only at hi
              have hnd : u.borrowed_books.Nodup := h.userNodup (card, u) (lookupA_mem hu)
              obtain ⟨hne, hil⟩ := hnd.mem_erase_iff.mp hi
              obtain ⟨bi, hbi, h1, h2⟩ := h.held (card, u) (lookupA_mem hu) i hil
              have hine : i ≠ isbn := by
                rw [← hkey]
                exact hne
              exact ⟨bi, (lookupA_setA_ne hine).trans hbi, h1, h2⟩
            · obtain ⟨bi, hbi, h1, h2⟩ := h.held q hqold i hi
              have hine : i ≠ isbn := by
                intro habs
                subst habs
                rw [hb] at hbi
                cases hbi
                rw [hown] at h2
                exact hqne (by injection h2 with h3; exact h3.symm)
              exact ⟨bi, (lookupA_setA_ne hine).trans hbi, h1, h2⟩
        · -- held but not on loan: the Python body returns None without mutation
          have hbor2 : b.is_borrowed = false := by simpa using hbor
          simp only [hmem, hbor2, if_true, Bool.false_eq_true, if_false]
          rw [setA_eq_self hu, setA_eq_self hb]
          exact h
      · -- not held by this user: failure without mutation
        simp only [hmem, if_false]
        rw [setA_eq_self hu, setA_eq_self hb]
        exact h

theorem libInv_applyOp {lib : Library} (h : LibInv lib) (op : Op) :
    LibInv (lib.applyOp op) := by
  cases op with
  | addBook t a i => exact libInv_add_book h t a i
  | removeBook i => exact libInv_remove_book h i
  | registerUser n c => exact libInv_register_user h n c
  | borrowBook c i => exact libInv_borrow_book h c i
  | returnBook c i => exact libInv_return_book h c i

theorem libInv_runOps {lib : Library} (h : LibInv lib) :
    ∀ ops : List Op, LibInv (lib.runOps ops)
  | [] => h
  | op :: rest => libInv_runOps (libInv_applyOp h op) rest

/-! Path characterisations of the two loan-moving operations. -/

theorem borrow_book_success_shape (lib : Library) (card isbn : String)
    (h : (lib.borrow_book card isbn).1 = true) :
    ∃ u b, lookupA card lib.users = some u ∧ lookupA isbn lib.books = some b ∧
      u.can_borrow_more = true ∧ b.is_borrowed = false ∧
      (lib.borrow_book card isbn).2 =
        { lib with
            users := setA card { u with borrowed_books := u.borrowed_books ++ [b.isbn] } lib.users,
            books := setA isbn { b with is_borrowed := true, borrower := some u.card_id } lib.books,
            borrow_records := lib.borrow_records ++
              [{ user_name := u.name, user_card_id := card, book_title := b.title,
                 book_isbn := isbn, borrow_time := borrowTimePlaceholder }] } := by
  unfold Library.borrow_book at h ⊢
  cases hu : lookupA card lib.users with
  | none =>
      rw [hu] at h
      simp at h
  | some u =>
    rw [hu] at h
    cases hb : lookupA isbn lib.books with
    | none =>
        rw [hb] at h
        simp at h
    | some b =>
      rw [hb] at h
      simp only [User.borrow_book, Book.borrow] at h ⊢
      by_cases hcan : u.can_borrow_more = true
      · by_cases hbor : b.is_borrowed = true
        · simp [hcan, hbor] at h
        · have hbor2 : b.is_borrowed = false := by simpa using hbor
          refine ⟨u, b, rfl, rfl, hcan, hbor2, ?_⟩
          simp [hcan, hbor2]
      · have hcan2 : u.can_borrow_more = false := by simpa using hcan
        simp [hcan2] at h

theorem return_book_records (lib : Library) (card isbn : String) :
    (lib.return_book card isbn).2.borrow_records = lib.borrow_records := by
  unfold Library.return_book
  cases hu : lookupA card lib.users with
  | none => rfl
  | some u =>
    cases hb : lookupA isbn lib.books with
    | none => rfl
    | some b =>
      rcases hr : u.return_book b with ⟨r, u', b'⟩
      rfl

theorem applyOp_records_extend (lib : Library) (op : Op) :
    ∃ tl, (lib.applyOp op).borrow_records = lib.borrow_records ++ tl := by
  cases op with
  | addBook t a i =>
      refine ⟨[], ?_⟩
      simp only [Library.applyOp]
      unfold Library.add_book
      by_cases hk : hasKey i lib.books = true <;> simp [hk]
  | removeBook i =>
      refine ⟨[], ?_⟩
      simp only [Library.applyOp]
      unfold Library.remove_book
      cases hl : lookupA i lib.books with
      | none => simp
      | some b => by_cases hbor : b.is_borrowed = true <;> simp [hbor]
  | registerUser n c =>
      refine ⟨[], ?_⟩
      simp only [Library.applyOp]
      unfold Library.register_user
      by_cases hk : hasKey c lib.users = true <;> simp [hk]
  | borrowBook c i =>
      simp only [Library.applyOp]
      unfold Library.borrow_book
      cases hu : lookupA c lib.users with
      | none => exact ⟨[], by simp⟩
      | some u =>
        cases hb : lookupA i lib.books with
        | none => exact ⟨[], by simp⟩
        | some b =>
          dsimp only
          rcases hr : u.borrow_book b with ⟨ok, u', b'⟩
          cases ok with
          | false =>
              refine ⟨[], ?_⟩
              simp
          | true =>
              exact ⟨[{ user_name := u.name, user_card_id := c, book_title := b.title,
                        book_isbn := i, borrow_time := borrowTimePlaceholder }], rfl⟩
  | returnBook c i =>
      refine ⟨[], ?_⟩
      simp only [Library.applyOp]
      rw [return_book_records, List.append_nil]

theorem return_book_success_shape (lib : Library) (card isbn : String) (u : User) (b : Book)
    (hu : lookupA card lib.users = some u) (hb : lookupA isbn lib.books = some b)
    (hmem : b.isbn ∈ u.borrowed_books) (hbor : b.is_borrowed = true) :
    lib.return_book card isbn =
      (some true, { lib with
          users := setA card { u with borrowed_books := u.borrowed_books.erase b.isbn } lib.users,
          books := setA isbn { b with is_borrowed := false, borrower := none } lib.books }) := by
  unfold Library.return_book
  rw [hu, hb]
  dsimp only
  simp only [User.return_book, Book.return_book, hmem, hbor, if_true]

/-- C4: in any library state in which the book catalogued under `isbn` is
on loan, `borrow_book card isbn` by any patron returns `false` and
returns the state entirely unchanged, so the book's holder, every
patron's held-books list, and the loan log are all untouched. -/
theorem c4_borrow_on_loan_fails (lib : Library) (card isbn : String) (b : Book)
    (hb : lookupA isbn lib.books = some b) (hbor : b.is_borrowed = true) :
    lib.borrow_book card isbn = (false, lib) := by
  unfold Library.borrow_book
  cases hu : lookupA card lib.users with
  | none => rfl
  | some u =>
    rw [hb]
    dsimp only
    simp only [User.borrow_book, Book.borrow, hbor, Bool.not_true, Bool.false_eq_true, if_false]
    by_cases hcan : u.can_borrow_more = true
    · simp only [hcan, Bool.not_true, Bool.false_eq_true, if_false]
      rw [setA_eq_self hu, setA_eq_self hb]
    · have hcan2 : u.can_borrow_more = false := by simpa using hcan
      simp only [hcan2, Bool.not_false, if_true]
      rw [setA_eq_self hu, setA_eq_self hb]

/-- Witness for C4: user `c2` cannot borrow `i1`, already on loan to `c1`;
nothing changes. -/
theorem c4_witness : exLib.borrow_book "c2" "i1" = (false, exLib) :=
  c4_borrow_on_loan_fails exLib "c2" "i1" exBook1 (by decide) (by decide)

/-- C5: in any library state, when the looked-up patron exists and the
looked-up book exists but is not in that patron's held-books list,
`return_book` returns `false` and returns the state entirely unchanged. -/
theorem c5_return_not_held_fails (lib : Library) (card isbn : String) (u : User) (b : Book)
    (hu : lookupA card lib.users = some u) (hb : lookupA isbn lib.books = some b)
    (hmem : b.isbn ∉ u.borrowed_books) :
    lib.return_book card isbn = (some false, lib) := by
  unfold Library.return_book
  rw [hu, hb]
  dsimp only
  simp only [User.return_book, hmem, if_false]
  rw [setA_eq_self hu, setA_eq_self hb]

/-- Witness for C5: user `c2` returning `i2`, which they do not hold,
fails with no mutation. -/
theorem c5_witness : exLib.return_book "c2" "i2" = (some false, exLib) :=
  c5_return_not_held_fails exLib "c2" "i2" exUser2 exBook2 (by decide) (by decide) (by decide)

/-- C8: `check_book_availability` realises exactly three mutually
distinct outcomes: `none` for an isbn absent from the catalog, `some
true` for a present book not on loan, and `some false` for a present book
on loan; in particular the unknown-book outcome differs from the
unavailable outcome. -/
theorem c8_check_availability_trichotomy (lib : Library) (isbn : String) :
    (lookupA isbn lib.books = none → lib.check_book_availability isbn = none) ∧
    (∀ b, lookupA isbn lib.books = some b → b.is_borrowed = false →
        lib.check_book_availability isbn = some true) ∧
    (∀ b, lookupA isbn lib.books = some b → b.is_borrowed = true →
        lib.check_book_availability isbn = some false) ∧
    (none : Option Bool) ≠ some false ∧ (none : Option Bool) ≠ some true ∧
    (some true : Option Bool) ≠ some false := by
  refine ⟨?_, ?_, ?_, by simp, by simp, by simp⟩
  · intro h
    unfold Library.check_book_availability
    rw [h]
  · intro b hb hav
    unfold Library.check_book_availability
    rw [hb]
    simp [Book.is_available, hav]
  · intro b hb hav
    unfold Library.check_book_availability
    rw [hb]
    simp [Book.is_available, hav]

/-- Witness for C8: at the sample state, an unknown isbn, an available
book and an on-loan book give the three distinct outcomes. -/
theorem c8_witness :
    exLib.check_book_availability "i9" = none ∧
    exLib.check_book_availability "i2" = some true ∧
    exLib.check_book_availability "i1" = some false :=
  ⟨(c8_check_availability_trichotomy exLib "i9").1 (by decide),
   (c8_check_availability_trichotomy exLib "i2").2.1 exBook2 (by decide) (by decide),
   (c8_check_availability_trichotomy exLib "i1").2.2.1 exBook1 (by decide) (by decide)⟩

/-- C9: `remove_book` fails with no change when the isbn is unknown,
fails with no change (the book stays catalogued and on loan) when the
book is on loan, and otherwise reports success and deletes exactly that
binding from the catalog. -/
theorem c9_remove_book_spec (lib : Library) (isbn : String) :
    (lookupA isbn lib.books = none → lib.remove_book isbn = (false, lib)) ∧
    (∀ b, lookupA isbn lib.books = some b → b.is_borrowed = true →
        lib.remove_book isbn = (false, lib)) ∧
    (∀ b, lookupA isbn lib.books = some b → b.is_borrowed = false →
        lib.remove_book isbn = (true, { lib with books := eraseA isbn lib.books }) ∧
        ((lib.books.map Prod.fst).Nodup →
          lookupA isbn (lib.remove_book isbn).2.books = none)) := by
  refine ⟨?_, ?_, ?_⟩
  · intro h
    unfold Library.remove_book
    rw [h]
  · intro b hb hbor
    unfold Library.remove_book
    rw [hb]
    simp [hbor]
  · intro b hb hbor
    have hres : lib.remove_book isbn = (true, { lib with books := eraseA isbn lib.books }) := by
      unfold Library.remove_book
      rw [hb]
      simp [hbor]
    refine ⟨hres, ?_⟩
    intro hnd
    rw [hres]
    exact lookupA_eraseA_self hnd

/-- Witness for C9: removing the on-loan `i1` fails and changes nothing;
removing the available `i2` succeeds and deletes it. -/
theorem c9_witness :
    exLib.remove_book "i1" = (false, exLib) ∧
    exLib.remove_book "i2" = (true, { exLib with books := eraseA "i2" exLib.books }) ∧
    lookupA "i2" (exLib.remove_book "i2").2.books = none :=
  ⟨(c9_remove_book_spec exLib "i1").2.1 exBook1 (by decide) (by decide),
   ((c9_remove_book_spec exLib "i2").2.2 exBook2 (by decide) (by decide)).1,
   ((c9_remove_book_spec exLib "i2").2.2 exBook2 (by decide) (by decide)).2 (by decide)⟩

theorem containsSeq_nil (hay : List Char) : containsSeq hay [] = true := by
  cases hay with
  | nil => rfl
  | cons h t => simp [containsSeq, List.isPrefixOf]

/-- C10: `search_book` returns exactly the books one of whose lowered
title, lowered author, or lowered catalog key (the isbn) contains the
lowered keyword as a contiguous substring; the result is a sublist of the
catalog in insertion order, and the empty keyword returns every book. -/
theorem c10_search_book_spec (lib : Library) (keyword : String) (b : Book) :
    (b ∈ lib.search_book keyword ↔
      ∃ i, (i, b) ∈ lib.books ∧
        (strContains (strLower b.title) (strLower keyword) = true ∨
         strContains (strLower b.author) (strLower keyword) = true ∨
         strContains (strLower i) (strLower keyword) = true)) ∧
    (lib.search_book keyword).Sublist (lib.books.map Prod.snd) ∧
    lib.search_book "" = lib.books.map Prod.snd := by
  refine ⟨?_, ?_, ?_⟩
  · unfold Library.search_book
    simp only [List.mem_map, List.mem_filter, Bool.or_eq_true]
    constructor
    · rintro ⟨p, ⟨hp, hcond⟩, rfl⟩
      exact ⟨p.1, by simpa using hp, or_assoc.mp hcond⟩
    · rintro ⟨i, hib, hcond⟩
      exact ⟨(i, b), ⟨hib, or_assoc.mpr hcond⟩, rfl⟩
  · exact List.Sublist.map Prod.snd (List.filter_sublist _)
  · unfold Library.search_book
    have hlow : strLower "" = "" := rfl
    simp only [hlow]
    have hall : ∀ p : String × Book,
        (strContains (strLower p.2.title) "" ||
         strContains (strLower p.2.author) "" ||
         strContains (strLower p.1) "" ) = true := by
      intro p
      simp [strContains, containsSeq_nil]
    rw [List.filter_eq_self.mpr fun p _ => hall p]

/-- C2: in every state reachable from a fresh library by any sequence of
catalog operations (so in every intermediate state of a longer sequence
as well, each being reachable by a prefix), every registered user's
held-books list has length at most 5, and every user's stored borrow
limit is the constant 5. -/
theorem c2_borrow_limit (name : String) (ops : List Op) (q : String × User)
    (hq : q ∈ ((Library.create name).runOps ops).users) :
    (q.2).borrowed_books.length ≤ 5 ∧ (q.2).max_borrow_limit = 5 := by
  have h := libInv_runOps (libInv_create name) ops
  have hc := h.userCount q hq
  have hl := h.userLimit q hq
  rw [hl] at hc
  exact ⟨hc, hl⟩

/-- Witness for C2: after adding a book, registering a user and
borrowing, the single registered user is within the limit. -/
theorem c2_witness :
    (("c1", ({ name := "n", card_id := "c1", borrowed_books := ["i1"] } : User)) ∈
      ((Library.create "L").runOps
        [Op.addBook "t" "a" "i1", Op.registerUser "n" "c1", Op.borrowBook "c1" "i1"]).users) ∧
    (("c1", ({ name := "n", card_id := "c1", borrowed_books := ["i1"] } : User)).2).borrowed_books.length ≤ 5 :=
  ⟨by decide,
   (c2_borrow_limit "L"
     [Op.addBook "t" "a" "i1", Op.registerUser "n" "c1", Op.borrowBook "c1" "i1"]
     ("c1", { name := "n", card_id := "c1", borrowed_books := ["i1"] })
     (by decide)).1⟩

/-- C3: in every state reachable from a fresh library, every catalogued
book has its loan flag set exactly when its holder field is set, and
`is_available` is the negation of the loan flag; as every operation maps
reachable states to reachable states, every operation preserves this. -/
theorem c3_flag_holder_consistent (name : String) (ops : List Op) (p : String × Book)
    (hp : p ∈ ((Library.create name).runOps ops).books) :
    ((p.2).is_borrowed = true ↔ ((p.2).borrower).isSome = true) ∧
    (p.2).is_available = !(p.2).is_borrowed := by
  have h := libInv_runOps (libInv_create name) ops
  exact ⟨by rw [h.bookFlag p hp], rfl⟩

/-- Witness for C3: the on-loan book produced by a concrete borrow has
flag and holder set together. -/
theorem c3_witness :
    (("i1", ({ title := "t", author := "a", isbn := "i1", is_borrowed := true,
               borrower := some "c1" } : Book)) ∈
      ((Library.create "L").runOps
        [Op.addBook "t" "a" "i1", Op.registerUser "n" "c1", Op.borrowBook "c1" "i1"]).books) ∧
    (({ title := "t", author := "a", isbn := "i1", is_borrowed := true,
        borrower := some "c1" } : Book).is_borrowed = true ↔
      (({ title := "t", author := "a", isbn := "i1", is_borrowed := true,
          borrower := some "c1" } : Book).borrower).isSome = true) :=
  ⟨by decide,
   (c3_flag_holder_consistent "L"
     [Op.addBook "t" "a" "i1", Op.registerUser "n" "c1", Op.borrowBook "c1" "i1"]
     ("i1", { title := "t", author := "a", isbn := "i1", is_borrowed := true,
              borrower := some "c1" })
     (by decide)).1⟩

/-- C6: in every state reachable from a fresh library, `return_book`
returns an actual boolean (`some _`), never the fall-off-the-end `none`:
a book held by a patron always has its loan flag set, so the inner
`Book.return_book` cannot fail once membership holds. -/
theorem c6_return_book_total (name : String) (ops : List Op) (card isbn : String) :
    ((((Library.create name).runOps ops).return_book card isbn).1).isSome = true := by
  have h := libInv_runOps (libInv_create name) ops
  revert h
  generalize (Library.create name).runOps ops = lib
  intro h
  unfold Library.return_book
  cases hu : lookupA card lib.users with
  | none => rfl
  | some u =>
    cases hb : lookupA isbn lib.books with
    | none => rfl
    | some b =>
      dsimp only
      simp only [User.return_book]
      by_cases hmem : b.isbn ∈ u.borrowed_books
      · obtain ⟨bi, hbi, h1, h2⟩ := h.held (card, u) (lookupA_mem hu) b.isbn hmem
        have hkey : b.isbn = isbn := h.bookKey (isbn, b) (lookupA_mem hb)
        rw [hkey, hb] at hbi
        cases hbi
        simp [hmem, Book.return_book, h1]
      · simp [hmem]

/-- C7: every operation only ever extends the loan log at its end; a
successful borrow appends exactly the one record built from the patron's
name, the card id, the book's title, the isbn and the placeholder
timestamp; a return never appends a record. -/
theorem c7_log_append_only (lib : Library) (op : Op) (card isbn : String) :
    (∃ tl, (lib.applyOp op).borrow_records = lib.borrow_records ++ tl) ∧
    ((lib.borrow_book card isbn).1 = true →
      ∃ u b, lookupA card lib.users = some u ∧ lookupA isbn lib.books = some b ∧
        (lib.borrow_book card isbn).2.borrow_records = lib.borrow_records ++
          [{ user_name := u.name, user_card_id := card, book_title := b.title,
             book_isbn := isbn, borrow_time := borrowTimePlaceholder }]) ∧
    (lib.return_book card isbn).2.borrow_records = lib.borrow_records := by
  refine ⟨applyOp_records_extend lib op, ?_, return_book_records lib card isbn⟩
  intro h
  obtain ⟨u, b, hu, hb, hcan, hbor, heq⟩ := borrow_book_success_shape lib card isbn h
  exact ⟨u, b, hu, hb, by rw [heq]⟩

/-- Witness for C7: user `c2` successfully borrows `i2` at the sample
state and exactly one matching record is appended. -/
theorem c7_witness :
    ∃ u b, lookupA "c2" exLib.users = some u ∧ lookupA "i2" exLib.books = some b ∧
      (exLib.borrow_book "c2" "i2").2.borrow_records = exLib.borrow_records ++
        [{ user_name := u.name, user_card_id := "c2", book_title := b.title,
           book_isbn := "i2", borrow_time := borrowTimePlaceholder }] :=
  (c7_log_append_only exLib (Op.removeBook "i2") "c2" "i2").2.1 (by decide)

/-- C1: starting from any state satisfying the data-model invariant in
which `borrow_book card isbn` succeeds, running that borrow and then
`return_book card isbn` leaves the book catalogued under `isbn` available
(loan flag clear) with no holder, and the isbn is absent from the
patron's held-books list. -/
theorem c1_round_trip (lib : Library) (card isbn : String) (hinv : LibInv lib)
    (hb : (lib.borrow_book card isbn).1 = true) :
    (∃ b2, lookupA isbn (((lib.borrow_book card isbn).2.return_book card isbn).2).books
        = some b2 ∧ b2.is_borrowed = false ∧ b2.borrower = none) ∧
    (∃ u2, lookupA card (((lib.borrow_book card isbn).2.return_book card isbn).2).users
        = some u2 ∧ isbn ∉ u2.borrowed_books) := by
  obtain ⟨u, b, hu, hbk, hcan, hbor, heq⟩ := borrow_book_success_shape lib card isbn hb
  have hkey : b.isbn = isbn := hinv.bookKey (isbn, b) (lookupA_mem hbk)
  have hnin : isbn ∉ u.borrowed_books :=
    libInv_not_held hinv hbk hbor (card, u) (lookupA_mem hu)
  rw [heq]
  have hu1 : lookupA card
      (setA card { u with borrowed_books := u.borrowed_books ++ [b.isbn] } lib.users)
      = some { u with borrowed_books := u.borrowed_books ++ [b.isbn] } :=
    lookupA_setA_self hu
  have hb1 : lookupA isbn
      (setA isbn { b with is_borrowed := true, borrower := some u.card_id } lib.books)
      = some { b with is_borrowed := true, borrower := some u.card_id } :=
    lookupA_setA_self hbk
  have hmem1 : ({ b with is_borrowed := true, borrower := some u.card_id } : Book).isbn
      ∈ ({ u with borrowed_books := u.borrowed_books ++ [b.isbn] } : User).borrowed_books := by
    simp
  rw [return_book_success_shape _ card isbn _ _ hu1 hb1 hmem1 rfl]
  dsimp only
  constructor
  · exact ⟨_, lookupA_setA_self hb1, rfl, rfl⟩
  · refine ⟨_, lookupA_setA_self hu1, ?_⟩
    have herase : (u.borrowed_books ++ [b.isbn]).erase b.isbn = u.borrowed_books := by
      rw [List.erase_append_right _ (by rw [hkey]; exact hnin)]
      simp
    rw [herase]
    exact hnin

/-- Witness for C1: the sample state satisfies the invariant, user `c2`
can borrow `i2`, and the borrow-return round trip restores it. -/
theorem c1_witness :
    (∃ b2, lookupA "i2" (((exLib.borrow_book "c2" "i2").2.return_book "c2" "i2").2).books
        = some b2 ∧ b2.is_borrowed = false ∧ b2.borrower = none) ∧
    (∃ u2, lookupA "c2" (((exLib.borrow_book "c2" "i2").2.return_book "c2" "i2").2).users
        = some u2 ∧ "i2" ∉ u2.borrowed_books) := by
  refine c1_round_trip exLib "c2" "i2" ?_ (by decide)
  constructor
  · intro p hp
    fin_cases hp <;> decide
  · intro p hp
    fin_cases hp <;> decide
  · decide
  · intro q hq
    fin_cases hq <;> decide
  · intro q hq
    fin_cases hq <;> decide
  · intro q hq
    fin_cases hq <;> decide
  · intro q hq
    fin_cases hq <;> decide
  · decide
  · intro q hq i hi
    fin_cases hq
    · have hi1 : i = "i1" := by simpa [exUser1] using hi
      subst hi1
      exact ⟨exBook1, by decide, by decide, by decide⟩
    · simp [exUser2] at hi
